import Mathlib

/-!
Verification of the Moona recommendation backend (app.py).

The Python source is shallowly embedded: Python/JSON values become the
inductive type PyVal, the strict json.loads decoder becomes a fuel-based
recursive function jsonLoads, regex operations of parse_json_block become
explicit list-of-character transformations, and the two outbound HTTP
calls (OpenAI generation, OMDb lookup) become oracle inputs describing
the outcome of each call.  Fallible Python operations are modelled with
Except String, mirroring the exceptions the interpreter would raise.
-/

/-- A Python value as produced by json.loads or manipulated by app.py.
vNone plays the role of Python None (the decoding of JSON null and the
default of dict.get).  Float literals keep their source text, since the
program never computes with numbers. -/
inductive PyVal where
  | vNone
  | vBool (b : Bool)
  | vInt (n : Int)
  | vFloat (lit : String)
  | vStr (s : String)
  | vList (xs : List PyVal)
  | vDict (kvs : List (String × PyVal))

/-- True when the mantissa of a float literal is all zeros, i.e. the
literal denotes 0.0; used only for Python truthiness of floats. -/
def floatLitZero (l : String) : Bool :=
  let cs := l.toList
  let cs := if cs.head? = some '-' then cs.tail else cs
  let mant := cs.takeWhile (fun c => c != 'e' && c != 'E')
  (!mant.isEmpty) && mant.all (fun c => c == '0' || c == '.')

/-- Python truthiness of a value (bool(v)). -/
def pyTruthy : PyVal → Bool
  | .vNone => false
  | .vBool b => b
  | .vInt n => n != 0
  | .vFloat l => !(floatLitZero l)
  | .vStr s => s != ""
  | .vList xs => !xs.isEmpty
  | .vDict kvs => !kvs.isEmpty

/-- Python equality of a value against a string literal; values of any
other type never compare equal to a str. -/
def pyEqStr (v : PyVal) (s : String) : Bool :=
  match v with
  | .vStr t => t == s
  | _ => false

/-- First binding of a key in an association list (Python dict order). -/
def dictFind : List (String × PyVal) → String → Option PyVal
  | [], _ => none
  | (k, v) :: rest, key => if k == key then some v else dictFind rest key

/-- Python dict assignment: update the value in place if the key exists,
otherwise append the new binding (insertion order preserved). -/
def dictSet : List (String × PyVal) → String → PyVal → List (String × PyVal)
  | [], key, v => [(key, v)]
  | (k, w) :: rest, key, v =>
    if k == key then (key, v) :: rest else (k, w) :: dictSet rest key v

/-- v.get(k): defined for dicts (None default); any other receiver raises
AttributeError. -/
def pyGet (v : PyVal) (k : String) : Except String PyVal :=
  match v with
  | .vDict kvs => .ok ((dictFind kvs k).getD .vNone)
  | _ => .error "AttributeError: object has no attribute get"

/-- Substring test: does the needle occur contiguously in the haystack. -/
def hasInfix (hay needle : List Char) : Bool :=
  if needle.isPrefixOf hay then true
  else
    match hay with
    | [] => false
    | _ :: t => hasInfix t needle

/-- k in v: key containment for dicts, element equality for lists,
substring test for strings; other receivers raise TypeError. -/
def pyContains (k : String) (v : PyVal) : Except String Bool :=
  match v with
  | .vDict kvs => .ok (dictFind kvs k).isSome
  | .vList xs => .ok (xs.any (fun x => pyEqStr x k))
  | .vStr s => .ok (hasInfix s.toList k.toList)
  | _ => .error "TypeError: argument is not a container"

/-- v[k] with a string subscript: only dicts support it (KeyError when
absent); list and str subscripts must be integers, so they raise. -/
def pyIndexStr (v : PyVal) (k : String) : Except String PyVal :=
  match v with
  | .vDict kvs =>
    match dictFind kvs k with
    | some x => .ok x
    | none => .error "KeyError"
  | _ => .error "TypeError: indices must be integers"

/-- Iterating a Python value: lists yield elements, strings yield
one-character strings, dicts yield their keys; the rest raise TypeError. -/
def pyIter (v : PyVal) : Except String (List PyVal) :=
  match v with
  | .vList xs => .ok xs
  | .vStr s => .ok (s.toList.map (fun c => .vStr (String.mk [c])))
  | .vDict kvs => .ok (kvs.map (fun kv => .vStr kv.1))
  | _ => .error "TypeError: object is not iterable"

/-- v[k] = x: dict item assignment; other receivers raise TypeError. -/
def pySetStr (v : PyVal) (k : String) (x : PyVal) : Except String PyVal :=
  match v with
  | .vDict kvs => .ok (.vDict (dictSet kvs k x))
  | _ => .error "TypeError: object does not support item assignment"

/-- a or b in Python: a when truthy, else b. -/
def pyOr (a b : PyVal) : PyVal := if pyTruthy a then a else b

/-! ### Strict JSON decoding (json.loads) -/

/-- JSON whitespace accepted between tokens by the Python decoder. -/
def isJsonWs (c : Char) : Bool := c == ' ' || c == '\t' || c == '\n' || c == '\r'

def skipWs (cs : List Char) : List Char := cs.dropWhile isJsonWs

def hexVal (c : Char) : Option Nat :=
  if c.isDigit then some (c.toNat - 48)
  else if 'a' ≤ c ∧ c ≤ 'f' then some (c.toNat - 87)
  else if 'A' ≤ c ∧ c ≤ 'F' then some (c.toNat - 55)
  else none

def parseHex4 (cs : List Char) : Option (Nat × List Char) :=
  match cs with
  | a :: b :: c :: d :: rest =>
    match hexVal a, hexVal b, hexVal c, hexVal d with
    | some x, some y, some z, some w => some ((((x * 16) + y) * 16 + z) * 16 + w, rest)
    | _, _, _, _ => none
  | _ => none

/-- Single-character JSON string escapes (BACKSLASH maps to json.py). -/
def escChar : Char → Option Char
  | '"' => some '"'
  | '\\' => some '\\'
  | '/' => some '/'
  | 'b' => some (Char.ofNat 8)
  | 'f' => some (Char.ofNat 12)
  | 'n' => some '\n'
  | 'r' => some '\r'
  | 't' => some '\t'
  | _ => none

/-- Body of a JSON string after the opening quote, strict mode: raw
control characters are rejected, surrogate escape pairs are combined.
A lone surrogate escape decodes to U+FFFD (Lean chars cannot hold it). -/
def parseStrBody : Nat → List Char → Except String (List Char × List Char)
  | 0, _ => .error "recursion limit"
  | _, [] => .error "Unterminated string"
  | fuel + 1, c :: rest =>
    if c == '"' then .ok ([], rest)
    else if c == '\\' then
      match rest with
      | [] => .error "Unterminated string"
      | e :: rest2 =>
        if e == 'u' then
          match parseHex4 rest2 with
          | none => .error "Invalid uXXXX escape"
          | some (n, rest3) =>
            if 0xD800 ≤ n ∧ n ≤ 0xDBFF then
              match rest3 with
              | '\\' :: 'u' :: rest4 =>
                match parseHex4 rest4 with
                | some (m, rest5) =>
                  if 0xDC00 ≤ m ∧ m ≤ 0xDFFF then
                    match parseStrBody fuel rest5 with
                    | .ok (s, r) =>
                      .ok (Char.ofNat (0x10000 + (n - 0xD800) * 1024 + (m - 0xDC00)) :: s, r)
                    | .error err => .error err
                  else
                    match parseStrBody fuel rest3 with
                    | .ok (s, r) => .ok (Char.ofNat 0xFFFD :: s, r)
                    | .error err => .error err
                | none =>
                  match parseStrBody fuel rest3 with
                  | .ok (s, r) => .ok (Char.ofNat 0xFFFD :: s, r)
                  | .error err => .error err
              | _ =>
                match parseStrBody fuel rest3 with
                | .ok (s, r) => .ok (Char.ofNat 0xFFFD :: s, r)
                | .error err => .error err
            else if 0xDC00 ≤ n ∧ n ≤ 0xDFFF then
              match parseStrBody fuel rest3 with
              | .ok (s, r) => .ok (Char.ofNat 0xFFFD :: s, r)
              | .error err => .error err
            else
              match parseStrBody fuel rest3 with
              | .ok (s, r) => .ok (Char.ofNat n :: s, r)
              | .error err => .error err
        else
          match escChar e with
          | some c2 =>
            match parseStrBody fuel rest2 with
            | .ok (s, r) => .ok (c2 :: s, r)
            | .error err => .error err
          | none => .error "Invalid escape"
    else if c.toNat < 32 then .error "Invalid control character"
    else
      match parseStrBody fuel rest with
      | .ok (s, r) => .ok (c :: s, r)
      | .error err => .error err

def digitsVal (ds : List Char) : Nat :=
  ds.foldl (fun a c => a * 10 + (c.toNat - 48)) 0

/-- A JSON number: optional minus, integer part (0 or nonzero-led),
optional fraction, optional exponent; greedy, exactly as the Python
decoder regex NUMBER_RE matches.  Pure integers become vInt, anything
with a fraction or exponent becomes a vFloat carrying the literal. -/
def parseNumber (cs : List Char) : Except String (PyVal × List Char) :=
  let signed := cs.head? = some '-'
  let cs1 := if signed then cs.tail else cs
  let intPart : List Char × List Char :=
    match cs1 with
    | '0' :: r => (['0'], r)
    | _ =>
      let ds := cs1.takeWhile Char.isDigit
      (ds, cs1.drop ds.length)
  let intDigits := intPart.1
  let cs2 := intPart.2
  if intDigits.isEmpty ∨ intDigits.head? = some '0' ∧ intDigits.length > 1 then
    .error "Expecting value"
  else
    let fracPart : List Char × List Char :=
      match cs2 with
      | '.' :: r =>
        let ds := r.takeWhile Char.isDigit
        if ds.isEmpty then ([], cs2) else ('.' :: ds, r.drop ds.length)
      | _ => ([], cs2)
    let fracDigits := fracPart.1
    let cs3 := fracPart.2
    let expPart : List Char × List Char :=
      match cs3 with
      | e :: r =>
        if e == 'e' || e == 'E' then
          let sr : List Char × List Char :=
            match r with
            | s :: r2 => if s == '+' || s == '-' then ([s], r2) else ([], r)
            | [] => ([], r)
          let ds := sr.2.takeWhile Char.isDigit
          if ds.isEmpty then ([], cs3) else (e :: (sr.1 ++ ds), sr.2.drop ds.length)
        else ([], cs3)
      | [] => ([], cs3)
    let expDigits := expPart.1
    let cs4 := expPart.2
    if fracDigits.isEmpty ∧ expDigits.isEmpty then
      let v : Int := Int.ofNat (digitsVal intDigits)
      .ok (.vInt (if signed then -v else v), cs4)
    else
      let lit := (if signed then ['-'] else []) ++ intDigits ++ fracDigits ++ expDigits
      .ok (.vFloat (String.mk lit), cs4)

/-- Parsing mode: a value, the element loop of an array (after at least
one element is required), or the member loop of an object. -/
inductive PMode where
  | value
  | arrLoop (acc : List PyVal)
  | objLoop (acc : List (String × PyVal))

/-- The recursive core of the strict decoder.  Fuel only bounds the
recursion depth (CPython has its own recursion limit, whose overrun is
likewise reported as an exception); the fuel supplied by jsonLoads is
large enough for every input. -/
def parseCore : Nat → PMode → List Char → Except String (PyVal × List Char)
  | 0, _, _ => .error "recursion limit"
  | fuel + 1, .value, cs =>
    match skipWs cs with
    | [] => .error "Expecting value"
    | c :: rest =>
      if c == '\x7b' then
        match skipWs rest with
        | '\x7d' :: r => .ok (.vDict [], r)
        | _ => parseCore fuel (.objLoop []) rest
      else if c == '[' then
        match skipWs rest with
        | ']' :: r => .ok (.vList [], r)
        | _ => parseCore fuel (.arrLoop []) rest
      else if c == '"' then
        match parseStrBody (rest.length + 1) rest with
        | .ok (s, r) => .ok (.vStr (String.mk s), r)
        | .error e => .error e
      else if c == 'n' then
        match rest with
        | 'u' :: 'l' :: 'l' :: r => .ok (.vNone, r)
        | _ => .error "Expecting value"
      else if c == 't' then
        match rest with
        | 'r' :: 'u' :: 'e' :: r => .ok (.vBool true, r)
        | _ => .error "Expecting value"
      else if c == 'f' then
        match rest with
        | 'a' :: 'l' :: 's' :: 'e' :: r => .ok (.vBool false, r)
        | _ => .error "Expecting value"
      else if c == 'N' then
        match rest with
        | 'a' :: 'N' :: r => .ok (.vFloat "NaN", r)
        | _ => .error "Expecting value"
      else if c == 'I' then
        match rest with
        | 'n' :: 'f' :: 'i' :: 'n' :: 'i' :: 't' :: 'y' :: r => .ok (.vFloat "Infinity", r)
        | _ => .error "Expecting value"
      else if c == '-' then
        match rest with
        | 'I' :: 'n' :: 'f' :: 'i' :: 'n' :: 'i' :: 't' :: 'y' :: r =>
          .ok (.vFloat "-Infinity", r)
        | _ => parseNumber (c :: rest)
      else if c.isDigit then parseNumber (c :: rest)
      else .error "Expecting value"
  | fuel + 1, .arrLoop acc, cs =>
    match parseCore fuel .value cs with
    | .error e => .error e
    | .ok (v, r) =>
      match skipWs r with
      | ',' :: r2 => parseCore fuel (.arrLoop (acc ++ [v])) r2
      | ']' :: r2 => .ok (.vList (acc ++ [v]), r2)
      | _ => .error "Expecting delimiter"
  | fuel + 1, .objLoop acc, cs =>
    match skipWs cs with
    | '"' :: r =>
      match parseStrBody (r.length + 1) r with
      | .error e => .error e
      | .ok (kcs, r2) =>
        match skipWs r2 with
        | ':' :: r3 =>
          match parseCore fuel .value r3 with
          | .error e => .error e
          | .ok (v, r4) =>
            let acc2 := dictSet acc (String.mk kcs) v
            match skipWs r4 with
            | ',' :: r5 => parseCore fuel (.objLoop acc2) r5
            | '\x7d' :: r5 => .ok (.vDict acc2, r5)
            | _ => .error "Expecting delimiter"
        | _ => .error "Expecting colon delimiter"
    | _ => .error "Expecting property name"

/-- json.loads: decode one value, then only whitespace may remain. -/
def jsonLoads (s : String) : Except String PyVal :=
  let cs := s.toList
  match parseCore (4 * cs.length + 8) .value cs with
  | .error e => .error e
  | .ok (v, rest) => if (skipWs rest).isEmpty then .ok v else .error "Extra data"

/-! ### parse_json_block -/

/-- Normalization of typographic quotes: U+201C and U+201D become a
plain double quote, U+2019 becomes a plain single quote.  The three
str.replace calls of the source have single-character patterns, hence
are one character map. -/
def normChar (c : Char) : Char :=
  if c == Char.ofNat 0x201C then '"'
  else if c == Char.ofNat 0x201D then '"'
  else if c == Char.ofNat 0x2019 then '\x27'
  else c

def normalizeText (s : String) : String := String.mk (s.toList.map normChar)

/-- The span matched by re.search of braces with DOTALL: from the first
opening brace to the last closing brace, provided the latter comes
later; otherwise no match and the whole text is the candidate. -/
def braceSpan (s : String) : String :=
  let cs := s.toList
  match cs.findIdx? (· == '\x7b'), (cs.reverse).findIdx? (· == '\x7d') with
  | some i, some jr =>
    let j := cs.length - 1 - jr
    if i < j then String.mk ((cs.drop i).take (j - i + 1)) else s
  | _, _ => s

/-- ASCII whitespace matched by the regex class backslash-s. -/
def isPyWs (c : Char) : Bool :=
  c == ' ' || c == '\t' || c == '\n' || c == '\r' || c == '\x0b' || c == '\x0c'

/-- re.sub of a comma, optional whitespace and a closing bracket by the
bracket alone: left-to-right, non-overlapping. -/
def stripCommas : Nat → List Char → List Char
  | 0, cs => cs
  | _, [] => []
  | fuel + 1, c :: rest =>
    if c == ',' then
      let ws := rest.takeWhile isPyWs
      match rest.drop ws.length with
      | b :: rest2 =>
        if b == '\x7d' || b == ']' then b :: stripCommas fuel rest2
        else c :: stripCommas fuel rest
      | [] => c :: stripCommas fuel rest
    else c :: stripCommas fuel rest

/-- The candidate string handed to json.loads by parse_json_block. -/
def jsonCandidate (s : String) : String :=
  let span := braceSpan s
  let cs := span.toList
  String.mk (stripCommas cs.length cs)

/-- parse_json_block from app.py: normalize quotes, cut the brace span,
strip trailing commas, strict-decode; any decode failure degrades to a
dict with the single key raw_text holding the normalized text. -/
def parse_json_block (text : String) : PyVal :=
  match jsonLoads (jsonCandidate (normalizeText text)) with
  | .ok v => v
  | .error _ => .vDict [("raw_text", .vStr (normalizeText text))]

/-! ### extract_text_from_response -/

/-- The relevant surface of the generation-API response object:
output_text models hasattr plus the attribute value (none when the
attribute is missing), output models getattr with None default, and
strRepr models str(response), the final fallback. -/
structure RespObj where
  output_text : Option String
  output : PyVal
  strRepr : String

/-- Fragments collected from one content field: a list contributes its
string elements as-is and, for dict elements, the value at key text;
a plain string contributes itself; anything else contributes nothing. -/
def partsOfContent (content : PyVal) : List PyVal :=
  match content with
  | .vList cs =>
    cs.foldr
      (fun c acc =>
        match c with
        | .vStr s => .vStr s :: acc
        | .vDict kvs =>
          match dictFind kvs "text" with
          | some t => t :: acc
          | none => acc
        | _ => acc)
      []
  | .vStr s => [.vStr s]
  | _ => []

/-- Fragments collected across the output blocks: only dict blocks are
inspected, via their content field. -/
def collectParts (blocks : List PyVal) : List PyVal :=
  blocks.foldr
    (fun b acc =>
      match b with
      | .vDict kvs => partsOfContent ((dictFind kvs "content").getD .vNone) ++ acc
      | _ => acc)
    []

/-- str.join over the fragments: raises TypeError unless every fragment
is a string. -/
def joinParts : List PyVal → Except String String
  | [] => .ok ""
  | .vStr s :: rest =>
    match joinParts rest with
    | .ok t => .ok (s ++ t)
    | .error e => .error e
  | _ :: _ => .error "TypeError: sequence item is not str"

/-- The branch of extract_text_from_response taken when the direct
output_text field is missing or empty: iterate a truthy output
attribute, else stringify the whole response. -/
def extractFromOutput (r : RespObj) : Except String String :=
  if pyTruthy r.output then
    match pyIter r.output with
    | .error e => .error e
    | .ok blocks => joinParts (collectParts blocks)
  else .ok r.strRepr

/-- extract_text_from_response from app.py. -/
def extract_text_from_response (r : RespObj) : Except String String :=
  match r.output_text with
  | some s => if s = "" then extractFromOutput r else .ok s
  | none => extractFromOutput r

/-! ### omdb_lookup -/

/-- Outcome of the single outbound OMDb HTTP request, supplied as an
oracle: raise covers a network error, a timeout and a non-JSON body
(everything that makes requests.get or res.json raise), ok carries the
decoded JSON payload. -/
inductive NetOutcome where
  | raise
  | ok (data : PyVal)

/-- The four-tuple returned by omdb_lookup; vNone is Python None. -/
structure OmdbRet where
  poster : PyVal
  year : PyVal
  genre : PyVal
  plot : PyVal

def omdbAllNone : OmdbRet := ⟨.vNone, .vNone, .vNone, .vNone⟩

/-- Truthiness of the configured OMDb credential (os.getenv result). -/
def keyTruthy : Option String → Bool
  | none => false
  | some s => s != ""

/-- omdb_lookup from app.py.  Besides the tuple it reports whether the
network request was issued at all.  A falsy credential short-circuits;
the try block swallows the request raising, a payload that is not a
mapping (its .get raises), and a non-True Response field all the same
way, falling through to the all-None return. -/
def omdb_lookup (key : Option String) (net : NetOutcome) (_title _year : PyVal) :
    OmdbRet × Bool :=
  if keyTruthy key = false then (omdbAllNone, false)
  else
    match net with
    | .raise => (omdbAllNone, true)
    | .ok data =>
      match data with
      | .vDict kvs =>
        if pyEqStr ((dictFind kvs "Response").getD .vNone) "True" then
          let poster := (dictFind kvs "Poster").getD .vNone
          (⟨if pyEqStr poster "N/A" then .vNone else poster,
            (dictFind kvs "Year").getD .vNone,
            (dictFind kvs "Genre").getD .vNone,
            (dictFind kvs "Plot").getD .vNone⟩, true)
        else (omdbAllNone, true)
      | _ => (omdbAllNone, true)

/-! ### The recommend handler -/

/-- m.get("title") as evaluated in the enrichment loop, for mapping m. -/
def mTitle (m : PyVal) : PyVal :=
  match m with
  | .vDict kvs => (dictFind kvs "title").getD .vNone
  | _ => .vNone

/-- m.get("year"). -/
def mYear (m : PyVal) : PyVal :=
  match m with
  | .vDict kvs => (dictFind kvs "year").getD .vNone
  | _ => .vNone

/-- m.get("why", ""). -/
def mWhy (m : PyVal) : PyVal :=
  match m with
  | .vDict kvs => (dictFind kvs "why").getD (.vStr "")
  | _ => .vStr ""

def posterPlaceholder : String := "/static/poster-placeholder.png"

/-- One loop iteration of the enrichment: the dict literal built from a
movie suggestion and the OMDb result for it. -/
def enrichedAt (key : Option String) (o : NetOutcome) (m : PyVal) : PyVal :=
  .vDict [("title", mTitle m),
          ("year", pyOr (omdb_lookup key o (mTitle m) (mYear m)).1.year (mYear m)),
          ("why", mWhy m),
          ("poster_url",
           pyOr (omdb_lookup key o (mTitle m) (mYear m)).1.poster (.vStr posterPlaceholder)),
          ("genre", (omdb_lookup key o (mTitle m) (mYear m)).1.genre),
          ("plot", (omdb_lookup key o (mTitle m) (mYear m)).1.plot)]

/-- One loop iteration with its failure mode: a non-mapping element
raises AttributeError at m.get before any lookup happens.  Also counts
whether this iteration issued a network request. -/
def enrichOne (key : Option String) (o : NetOutcome) (m : PyVal) :
    Nat × Except String PyVal :=
  match m with
  | .vDict _ => ((omdb_lookup key o (mTitle m) (mYear m)).2.toNat, .ok (enrichedAt key o m))
  | _ => (0, .error "AttributeError: object has no attribute get")

/-- The whole enrichment loop: iterations run in order, each consuming
the next oracle outcome; the first raising iteration aborts the loop
(later lookups are never issued). -/
def enrichMovies (key : Option String) (net : Nat → NetOutcome) :
    List PyVal → Nat × Except String (List PyVal)
  | [] => (0, .ok [])
  | m :: rest =>
    match enrichOne key (net 0) m with
    | (c1, .error e) => (c1, .error e)
    | (c1, .ok em) =>
      match enrichMovies key (fun i => net (i + 1)) rest with
      | (c2, .error e) => (c1 + c2, .error e)
      | (c2, .ok ems) => (c1 + c2, .ok (em :: ems))

/-- The enriched list on the success path, one entry per suggestion in
order, the i-th consuming the i-th oracle outcome. -/
def enrichList (key : Option String) (net : Nat → NetOutcome) : List PyVal → List PyVal
  | [] => []
  | m :: rest => enrichedAt key (net 0) m :: enrichList key (fun i => net (i + 1)) rest

/-- An HTTP result: a jsonify body and a status code. -/
structure HttpResponse where
  body : PyVal
  status : Nat

/-- The whole request scenario handed to the handler: the decoded
request body (none when get_json returned None), the generation-API
outcome (error carries str(e)), the OMDb credential and the per-call
OMDb oracle. -/
structure RecommendRun where
  body : Option PyVal
  api : Except String RespObj
  omdbKey : Option String
  net : Nat → NetOutcome

/-- What the handler produced, plus instrumentation: whether the
generation API was called and how many OMDb requests went out.  A result
of error means an exception escaped the handler to the framework. -/
structure RecommendOut where
  result : Except String HttpResponse
  apiCalled : Bool
  omdbRequests : Nat

/-- request.get_json() or empty dict, from the decoded body. -/
def getJsonData (body : Option PyVal) : PyVal :=
  match body with
  | some v => if pyTruthy v then v else .vDict []
  | none => .vDict []

/-- request.get_json() or empty dict. -/
def runData (run : RecommendRun) : PyVal := getJsonData run.body

def moodErrorBody : PyVal := .vDict [("error", .vStr "Mood is required")]

/-- The 500 result built in the except clause. -/
def fail500 (e : String) : HttpResponse :=
  ⟨.vDict [("error", .vStr "OpenAI request failed"), ("details", .vStr e)], 500⟩

/-- The soft-fail 200 result when no movies key is found. -/
def noMovieBody (text : String) : HttpResponse :=
  ⟨.vDict [("error", .vStr "No movie data returned"), ("raw", .vStr text)], 200⟩

/-- Everything inside the try block after the generation call already
produced text: parse, membership test, subscript, iteration, enrichment
and reassembly; any raise propagates as the error. -/
def handleText (key : Option String) (net : Nat → NetOutcome) (text : String) :
    Nat × Except String HttpResponse :=
  match pyContains "movies" (parse_json_block text) with
  | .error e => (0, .error e)
  | .ok has =>
    if has = false then (0, .ok (noMovieBody text))
    else
      match pyIndexStr (parse_json_block text) "movies" with
      | .error e => (0, .error e)
      | .ok movies =>
        match pyIter movies with
        | .error e => (0, .error e)
        | .ok ms =>
          match enrichMovies key net ms with
          | (cnt, .error e) => (cnt, .error e)
          | (cnt, .ok enriched) =>
            match pySetStr (parse_json_block text) "movies" (.vList enriched) with
            | .error e => (cnt, .error e)
            | .ok parsed2 =>
              (cnt, .ok ⟨.vDict [("recommendations", parsed2)], 200⟩)

/-- The recommend view function.  The mood check happens outside the
try block (a non-mapping truthy body makes data.get raise out of the
handler); everything after it is wrapped by the except clause that
produces the 500 result. -/
def recommend (run : RecommendRun) : RecommendOut :=
  match pyGet (runData run) "mood" with
  | .error e => ⟨.error e, false, 0⟩
  | .ok mood =>
    if pyTruthy mood = false then ⟨.ok ⟨moodErrorBody, 400⟩, false, 0⟩
    else
      match run.api with
      | .error e => ⟨.ok (fail500 e), true, 0⟩
      | .ok resp =>
        match extract_text_from_response resp with
        | .error e => ⟨.ok (fail500 e), true, 0⟩
        | .ok text =>
          match handleText run.omdbKey run.net text with
          | (cnt, .error e) => ⟨.ok (fail500 e), true, cnt⟩
          | (cnt, .ok resp2) => ⟨.ok resp2, true, cnt⟩

/-- Status of the handler result, when no exception escaped. -/
def outStatus (o : RecommendOut) : Option Nat :=
  match o.result with
  | .ok r => some r.status
  | .error _ => none

/-- A named field of the result body, when the body is a mapping. -/
def bodyField (o : RecommendOut) (k : String) : Option PyVal :=
  match o.result with
  | .ok r =>
    match r.body with
    | .vDict kvs => dictFind kvs k
    | _ => none
  | .error _ => none

/-- A named field of a movie entry (or of any mapping value). -/
def movieField (m : PyVal) (k : String) : Option PyVal :=
  match m with
  | .vDict kvs => dictFind kvs k
  | _ => none

/-- Status of a handler-internal result (none when it raised). -/
def respStatus : Except String HttpResponse → Option Nat
  | .ok r => some r.status
  | .error _ => none

/-- Whether a value is a Python mapping. -/
def isDictB : PyVal → Bool
  | .vDict _ => true
  | _ => false

/-- Number of OMDb requests issued by a fully successful enrichment
loop: one per movie when a credential is configured, none otherwise. -/
def enrichCount (key : Option String) (ms : List PyVal) : Nat :=
  if keyTruthy key then ms.length else 0

/-- The OMDb provider returns the Poster field as a string when present;
this is the typing assumption on the oracle under which the poster
invariant is stated. -/
def posterWellTyped (net : Nat → NetOutcome) : Prop :=
  ∀ i kvs v, net i = NetOutcome.ok (.vDict kvs) → dictFind kvs "Poster" = some v →
    v = .vNone ∨ ∃ s, v = .vStr s

/-! ### Concrete request scenarios used as witnesses and counterexamples -/

/-- A run whose generation call succeeds with valid JSON whose movies
value is a number, not a list of records. -/
def c1run : RecommendRun :=
  { body := some (.vDict [("mood", .vStr "happy")]),
    api := .ok { output_text := some "\x7b\"movies\": 42\x7d", output := .vNone, strRepr := "" },
    omdbKey := none,
    net := fun _ => .raise }

/-- A run whose generation call succeeds with the output text 42, which
decodes to a number, a parsed structure without any movies key. -/
def c6run : RecommendRun :=
  { body := some (.vDict [("mood", .vStr "sad")]),
    api := .ok { output_text := some "42", output := .vNone, strRepr := "" },
    omdbKey := none,
    net := fun _ => .raise }

/-- A fully successful run: one movie suggestion, one song, an OMDb
credential and a provider answer carrying a poster. -/
def okRun : RecommendRun :=
  { body := some (.vDict [("mood", .vStr "calm")]),
    api := .ok
      { output_text := some
          "\x7b\"movies\": [\x7b\"title\": \"In the Mood for Love\", \"year\": \"2000\", \"why\": \"w\"\x7d], \"songs\": [\x7b\"title\": \"s\"\x7d]\x7d",
        output := .vNone, strRepr := "" },
    omdbKey := some "k",
    net := fun _ => .ok (.vDict
      [("Response", .vStr "True"), ("Poster", .vStr "http://img/p.jpg"),
       ("Year", .vStr "2000"), ("Genre", .vStr "Drama"), ("Plot", .vStr "p")]) }

/-- The enriched movie entry okRun produces. -/
def okMovie : PyVal :=
  .vDict [("title", .vStr "In the Mood for Love"), ("year", .vStr "2000"),
          ("why", .vStr "w"), ("poster_url", .vStr "http://img/p.jpg"),
          ("genre", .vStr "Drama"), ("plot", .vStr "p")]

/-- The reassembled structure okRun returns under the recommendations
key. -/
def okParsed2 : PyVal :=
  .vDict [("movies", .vList [okMovie]),
          ("songs", .vList [.vDict [("title", .vStr "s")]])]

/-- A run with an empty mood; its other oracle fields are set to
outcomes that would be visible if they were consulted. -/
def emptyMoodRun : RecommendRun :=
  { body := some (.vDict [("mood", .vStr "")]),
    api := .error "should not matter",
    omdbKey := some "k",
    net := fun _ => .raise }

/-- A run whose generation call raises. -/
def failRun : RecommendRun :=
  { body := some (.vDict [("mood", .vStr "x")]),
    api := .error "conn reset",
    omdbKey := some "k",
    net := fun _ => .raise }

/-- A run whose generation call succeeds with non-JSON text. -/
def softRun : RecommendRun :=
  { body := some (.vDict [("mood", .vStr "x")]),
    api := .ok { output_text := some "no json here", output := .vNone, strRepr := "" },
    omdbKey := some "k",
    net := fun _ => .raise }

/-! ### Helper lemmas -/

theorem dictFind_dictSet_self (kvs : List (String × PyVal)) (key : String) (v : PyVal) :
    dictFind (dictSet kvs key v) key = some v := by
  induction kvs with
  | nil => simp [dictSet, dictFind]
  | cons kv rest ih =>
    obtain ⟨k, w⟩ := kv
    by_cases h : k = key
    · subst h
      simp [dictSet, dictFind]
    · have hb : (k == key) = false := by simp [h]
      simp [dictSet, dictFind, hb, ih]

theorem dictFind_dictSet_ne (kvs : List (String × PyVal)) (key k2 : String) (v : PyVal)
    (h : k2 ≠ key) : dictFind (dictSet kvs key v) k2 = dictFind kvs k2 := by
  induction kvs with
  | nil =>
    have hb : (key == k2) = false := by simp [Ne.symm h]
    simp [dictSet, dictFind, hb]
  | cons kv rest ih =>
    obtain ⟨k, w⟩ := kv
    by_cases hk : k = key
    · have hbk : (k == key) = true := by simp [hk]
      have hb : (key == k2) = false := by simp [Ne.symm h]
      have hb2 : (k == k2) = false := by rw [hk]; exact hb
      simp [dictSet, dictFind, hbk, hb, hb2]
    · have hb : (k == key) = false := by simp [hk]
      simp [dictSet, dictFind, hb, ih]

theorem omdb_attempted (key : Option String) (net : NetOutcome) (t y : PyVal) :
    (omdb_lookup key net t y).2 = keyTruthy key := by
  by_cases h : keyTruthy key = false
  · simp [omdb_lookup, h]
  · have h2 : keyTruthy key = true := by
      cases hk : keyTruthy key
      · exact absurd hk h
      · rfl
    cases net with
    | raise => simp [omdb_lookup, h, h2]
    | ok d =>
      cases d <;> simp [omdb_lookup, h, h2] <;> split <;> rfl

theorem enrichOne_dict (key : Option String) (o : NetOutcome) (kvs : List (String × PyVal)) :
    enrichOne key o (.vDict kvs) =
      ((keyTruthy key).toNat, .ok (enrichedAt key o (.vDict kvs))) := by
  simp [enrichOne, omdb_attempted]

theorem enrichMovies_ok_all_dict (key : Option String) (net : Nat → NetOutcome)
    (ms : List PyVal) (hd : ∀ m ∈ ms, isDictB m = true) :
    enrichMovies key net ms = (enrichCount key ms, .ok (enrichList key net ms)) := by
  induction ms generalizing net with
  | nil => simp [enrichMovies, enrichList, enrichCount]
  | cons m rest ih =>
    have hm : isDictB m = true := hd m (List.mem_cons_self m rest)
    have hrest : ∀ x ∈ rest, isDictB x = true :=
      fun x hx => hd x (List.mem_cons_of_mem m hx)
    cases m with
    | vDict kvs =>
      rw [enrichMovies, enrichOne_dict, ih (fun i => net (i + 1)) hrest]
      unfold enrichCount
      cases hk : keyTruthy key <;> simp [enrichList, Bool.toNat, hk] <;> omega
    | vNone => exact absurd hm (by simp [isDictB])
    | vBool b => exact absurd hm (by simp [isDictB])
    | vInt n => exact absurd hm (by simp [isDictB])
    | vFloat l => exact absurd hm (by simp [isDictB])
    | vStr s => exact absurd hm (by simp [isDictB])
    | vList xs => exact absurd hm (by simp [isDictB])

theorem enrichMovies_err (key : Option String) (net : Nat → NetOutcome)
    (ms : List PyVal) (hd : ¬ ∀ m ∈ ms, isDictB m = true) :
    (enrichMovies key net ms).2 = .error "AttributeError: object has no attribute get" := by
  induction ms generalizing net with
  | nil => exact absurd (by intro m hm; cases hm) hd
  | cons m rest ih =>
    by_cases hm : isDictB m = true
    · have hrest : ¬ ∀ x ∈ rest, isDictB x = true := by
        intro hr
        exact hd (by
          intro x hx
          rcases List.mem_cons.mp hx with h | h
          · subst h; exact hm
          · exact hr x h)
      cases m with
      | vDict kvs =>
        rw [enrichMovies, enrichOne_dict]
        have := ih (fun i => net (i + 1)) hrest
        cases he : enrichMovies key (fun i => net (i + 1)) rest with
        | mk c2 r2 =>
          rw [he] at this
          cases r2 with
          | error e => simpa using this
          | ok l => simp at this
      | vNone => simp [isDictB] at hm
      | vBool b => simp [isDictB] at hm
      | vInt n => simp [isDictB] at hm
      | vFloat l => simp [isDictB] at hm
      | vStr s => simp [isDictB] at hm
      | vList xs => simp [isDictB] at hm
    · cases m with
      | vDict kvs => exact absurd rfl hm
      | vNone => rfl
      | vBool b => rfl
      | vInt n => rfl
      | vFloat l => rfl
      | vStr s => rfl
      | vList xs => rfl

theorem enrichMovies_ok_inv (key : Option String) (net : Nat → NetOutcome)
    (ms : List PyVal) (cnt : Nat) (es : List PyVal)
    (h : enrichMovies key net ms = (cnt, .ok es)) :
    es = enrichList key net ms := by
  by_cases hd : ∀ m ∈ ms, isDictB m = true
  · rw [enrichMovies_ok_all_dict key net ms hd] at h
    have h2 := congrArg Prod.snd h
    simp only [Except.ok.injEq] at h2
    exact h2.symm
  · have := enrichMovies_err key net ms hd
    rw [h] at this
    simp at this

theorem enrichList_length (key : Option String) (net : Nat → NetOutcome) (ms : List PyVal) :
    (enrichList key net ms).length = ms.length := by
  induction ms generalizing net with
  | nil => rfl
  | cons m rest ih => simp [enrichList, ih]

theorem enrichList_get (key : Option String) (net : Nat → NetOutcome) (ms : List PyVal)
    (i : Nat) (h1 : i < ms.length) (h2 : i < (enrichList key net ms).length) :
    (enrichList key net ms).get ⟨i, h2⟩ = enrichedAt key (net i) (ms.get ⟨i, h1⟩) := by
  induction ms generalizing net i with
  | nil => exact absurd h1 (by simp)
  | cons m rest ih =>
    cases i with
    | zero => rfl
    | succ j =>
      have hj1 : j < rest.length := by simpa using h1
      have hj2 : j < (enrichList key (fun i => net (i + 1)) rest).length := by
        simpa [enrichList] using h2
      simpa [enrichList] using ih (fun i => net (i + 1)) j hj1 hj2

theorem omdb_poster_shape (key : Option String) (net : Nat → NetOutcome)
    (hnet : posterWellTyped net) (i : Nat) (t y : PyVal) :
    (omdb_lookup key (net i) t y).1.poster = .vNone ∨
      ∃ s, (omdb_lookup key (net i) t y).1.poster = .vStr s := by
  by_cases hk : keyTruthy key = false
  · left
    simp [omdb_lookup, hk, omdbAllNone]
  · cases hn : net i with
    | raise => left; simp [omdb_lookup, hk, omdbAllNone]
    | ok d =>
      cases d with
      | vDict kvs =>
        by_cases hr : pyEqStr ((dictFind kvs "Response").getD .vNone) "True" = true
        · cases hf : dictFind kvs "Poster" with
          | none =>
            have hna : pyEqStr ((dictFind kvs "Poster").getD .vNone) "N/A" = false := by
              rw [hf]; rfl
            left
            simp [omdb_lookup, hk, hr, hf, hna]
          | some v =>
            rcases hnet i kvs v hn hf with hv | ⟨s, hv⟩
            · subst hv
              have hna : pyEqStr ((dictFind kvs "Poster").getD .vNone) "N/A" = false := by
                rw [hf]; rfl
              left
              simp [omdb_lookup, hk, hr, hf, hna]
            · subst hv
              by_cases hna : (s == "N/A") = true
              · have hna2 : pyEqStr ((dictFind kvs "Poster").getD .vNone) "N/A" = true := by
                  rw [hf]; simp [pyEqStr, hna]
                left
                simp [omdb_lookup, hk, hr, hna2]
              · have hna2 : pyEqStr ((dictFind kvs "Poster").getD .vNone) "N/A" = false := by
                  rw [hf]; simp [pyEqStr, hna]
                have hna3 : pyEqStr (.vStr s) "N/A" = false := by simp [pyEqStr, hna]
                right
                exact ⟨s, by simp [omdb_lookup, hk, hr, hf, hna2, hna3]⟩
        · have hr2 : pyEqStr ((dictFind kvs "Response").getD .vNone) "True" = false := by
            cases hx : pyEqStr ((dictFind kvs "Response").getD .vNone) "True"
            · rfl
            · exact absurd hx hr
          left
          simp [omdb_lookup, hk, hr2, omdbAllNone]
      | vNone => left; simp [omdb_lookup, hk, omdbAllNone]
      | vBool b => left; simp [omdb_lookup, hk, omdbAllNone]
      | vInt n => left; simp [omdb_lookup, hk, omdbAllNone]
      | vFloat l => left; simp [omdb_lookup, hk, omdbAllNone]
      | vStr s => left; simp [omdb_lookup, hk, omdbAllNone]
      | vList xs => left; simp [omdb_lookup, hk, omdbAllNone]

theorem pyOr_poster (pv : PyVal) (h : pv = .vNone ∨ ∃ s, pv = .vStr s) :
    ∃ t, pyOr pv (.vStr posterPlaceholder) = .vStr t ∧ t ≠ "" := by
  rcases h with h | ⟨s, h⟩
  · subst h
    exact ⟨posterPlaceholder, rfl, by decide⟩
  · subst h
    by_cases hs : s = ""
    · subst hs
      exact ⟨posterPlaceholder, rfl, by decide⟩
    · refine ⟨s, ?_, hs⟩
      have ht : pyTruthy (.vStr s) = true := by simp [pyTruthy, hs]
      simp [pyOr, ht]

theorem enrichedAt_poster (key : Option String) (o : NetOutcome) (m : PyVal) :
    movieField (enrichedAt key o m) "poster_url" =
      some (pyOr (omdb_lookup key o (mTitle m) (mYear m)).1.poster (.vStr posterPlaceholder)) :=
  rfl

theorem respStatus_handleText (k1 k2 : Option String) (n1 n2 : Nat → NetOutcome) (t : String) :
    respStatus (handleText k1 n1 t).2 = respStatus (handleText k2 n2 t).2 := by
  cases hc : pyContains "movies" (parse_json_block t) with
  | error e => simp [handleText, hc]
  | ok has =>
    by_cases hh : has = false
    · simp [handleText, hc, hh]
    · have hh2 : has = true := by
        cases has
        · exact absurd rfl hh
        · rfl
      subst hh2
      cases hi : pyIndexStr (parse_json_block t) "movies" with
      | error e => simp [handleText, hc, hi]
      | ok movies =>
        cases hit : pyIter movies with
        | error e => simp [handleText, hc, hi, hit]
        | ok ms =>
          cases hp : parse_json_block t with
          | vDict kvs =>
            rw [hp] at hc hi
            by_cases hd : ∀ m ∈ ms, isDictB m = true
            · have e1 := enrichMovies_ok_all_dict k1 n1 ms hd
              have e2 := enrichMovies_ok_all_dict k2 n2 ms hd
              simp [handleText, hp, hc, hi, hit, e1, e2, pySetStr, respStatus]
            · have h1 := enrichMovies_err k1 n1 ms hd
              have h2 := enrichMovies_err k2 n2 ms hd
              cases he1 : enrichMovies k1 n1 ms with
              | mk c1 r1 =>
                cases he2 : enrichMovies k2 n2 ms with
                | mk c2 r2 =>
                  rw [he1] at h1
                  rw [he2] at h2
                  simp only at h1 h2
                  subst h1
                  subst h2
                  simp [handleText, hp, hc, hi, hit, he1, he2, respStatus]
          | vNone => rw [hp] at hi; simp [pyIndexStr] at hi
          | vBool b => rw [hp] at hi; simp [pyIndexStr] at hi
          | vInt n => rw [hp] at hi; simp [pyIndexStr] at hi
          | vFloat l => rw [hp] at hi; simp [pyIndexStr] at hi
          | vStr s => rw [hp] at hi; simp [pyIndexStr] at hi
          | vList xs => rw [hp] at hi; simp [pyIndexStr] at hi

theorem errorKey_dict_ne (p v : PyVal) (rest : List (String × PyVal)) :
    PyVal.vDict (("error", v) :: rest) ≠ .vDict [("recommendations", p)] := by
  intro h
  injection h with h
  injection h with h1 h2
  injection h1 with ha hb
  exact absurd ha (by decide)

theorem handleText_ok_inv (key : Option String) (net : Nat → NetOutcome) (text : String)
    (cnt : Nat) (resp2 : HttpResponse) (p : PyVal)
    (h : handleText key net text = (cnt, .ok resp2))
    (hbody : resp2.body = .vDict [("recommendations", p)]) :
    ∃ movies ms,
      pyIndexStr (parse_json_block text) "movies" = .ok movies ∧
      pyIter movies = .ok ms ∧
      enrichMovies key net ms = (cnt, .ok (enrichList key net ms)) ∧
      pySetStr (parse_json_block text) "movies" (.vList (enrichList key net ms)) = .ok p ∧
      resp2.status = 200 := by
  cases hc : pyContains "movies" (parse_json_block text) with
  | error e => simp [handleText, hc] at h
  | ok has =>
    by_cases hh : has = false
    · simp [handleText, hc, hh] at h
      obtain ⟨h1, h2⟩ := h
      rw [← h2] at hbody
      exact absurd hbody (errorKey_dict_ne p _ _)
    · have hh2 : has = true := by
        cases has
        · exact absurd rfl hh
        · rfl
      subst hh2
      cases hi : pyIndexStr (parse_json_block text) "movies" with
      | error e => simp [handleText, hc, hi] at h
      | ok movies =>
        cases hit : pyIter movies with
        | error e => simp [handleText, hc, hi, hit] at h
        | ok ms =>
          cases he : enrichMovies key net ms with
          | mk c r =>
            cases r with
            | error e => simp [handleText, hc, hi, hit, he] at h
            | ok enriched =>
              have hen : enriched = enrichList key net ms :=
                enrichMovies_ok_inv key net ms c enriched he
              subst hen
              cases hs : pySetStr (parse_json_block text) "movies"
                  (.vList (enrichList key net ms)) with
              | error e => simp [handleText, hc, hi, hit, he, hs] at h
              | ok parsed2 =>
                simp [handleText, hc, hi, hit, he, hs] at h
                obtain ⟨hcnt, hresp⟩ := h
                subst hcnt
                rw [← hresp] at hbody
                simp only at hbody
                injection hbody with hb
                injection hb with hb1 hb2
                injection hb1 with hb1a hb1b
                subst hb1b
                refine ⟨movies, ms, rfl, hit, he, hs, ?_⟩
                rw [← hresp]

theorem recommend_success_inv (run : RecommendRun) (r : HttpResponse) (p : PyVal)
    (hres : (recommend run).result = .ok r)
    (hbody : r.body = .vDict [("recommendations", p)]) :
    ∃ resp text,
      run.api = .ok resp ∧ extract_text_from_response resp = .ok text ∧
      ∃ movies ms cnt,
        pyIndexStr (parse_json_block text) "movies" = .ok movies ∧
        pyIter movies = .ok ms ∧
        enrichMovies run.omdbKey run.net ms = (cnt, .ok (enrichList run.omdbKey run.net ms)) ∧
        pySetStr (parse_json_block text) "movies"
          (.vList (enrichList run.omdbKey run.net ms)) = .ok p ∧
        r.status = 200 := by
  cases hm : pyGet (runData run) "mood" with
  | error e => simp [recommend, hm] at hres
  | ok mood =>
    by_cases ht : pyTruthy mood = false
    · simp [recommend, hm, ht] at hres
      rw [← hres] at hbody
      exact absurd hbody (errorKey_dict_ne p _ _)
    · cases hapi : run.api with
      | error e =>
        simp [recommend, hm, ht, hapi] at hres
        rw [← hres] at hbody
        exact absurd hbody (errorKey_dict_ne p _ _)
      | ok resp =>
        cases hext : extract_text_from_response resp with
        | error e =>
          simp [recommend, hm, ht, hapi, hext] at hres
          rw [← hres] at hbody
          exact absurd hbody (errorKey_dict_ne p _ _)
        | ok text =>
          cases hht : handleText run.omdbKey run.net text with
          | mk cnt res =>
            cases res with
            | error e =>
              simp [recommend, hm, ht, hapi, hext, hht] at hres
              rw [← hres] at hbody
              exact absurd hbody (errorKey_dict_ne p _ _)
            | ok resp2 =>
              simp [recommend, hm, ht, hapi, hext, hht] at hres
              rw [← hres] at hbody
              obtain ⟨movies, ms, h1, h2, h3, h4, h5⟩ :=
                handleText_ok_inv run.omdbKey run.net text cnt resp2 p hht hbody
              exact ⟨resp, text, rfl, hext, movies, ms, cnt, h1, h2, h3, h4,
                by rw [← hres]; exact h5⟩

/-! ### Claim theorems -/

/-- C2: parse_json_block is total: for every input string it either
returns the strict decoding of the recovered candidate, or exactly the
fallback mapping with the single key raw_text holding the normalized
input text; in particular on the input "no json here" it returns the
raw-text fallback. -/
theorem c2_parse_total_fallback :
    (∀ text : String,
      (∃ v, jsonLoads (jsonCandidate (normalizeText text)) = .ok v ∧ parse_json_block text = v) ∨
      (parse_json_block text = .vDict [("raw_text", .vStr (normalizeText text))] ∧
        ∃ e, jsonLoads (jsonCandidate (normalizeText text)) = .error e)) ∧
    parse_json_block "no json here" = .vDict [("raw_text", .vStr "no json here")] := by
  constructor
  · intro text
    unfold parse_json_block
    cases h : jsonLoads (jsonCandidate (normalizeText text)) with
    | ok v => exact Or.inl ⟨v, rfl, rfl⟩
    | error e => exact Or.inr ⟨rfl, e, rfl⟩
  · rfl

/-- C3: an input that is already strictly valid JSON, free of
typographic quotes, on which parse_json_block returns a different
structure than strict decoding: the comma-stripping rewrite deletes the
comma inside the string value. -/
theorem c3_comma_strip_corrupts :
    normalizeText "\x7b\"k\": \"v,\x7d\"\x7d" = "\x7b\"k\": \"v,\x7d\"\x7d" ∧
    jsonLoads "\x7b\"k\": \"v,\x7d\"\x7d" = .ok (.vDict [("k", .vStr "v,\x7d")]) ∧
    parse_json_block "\x7b\"k\": \"v,\x7d\"\x7d" = .vDict [("k", .vStr "v\x7d")] ∧
    (PyVal.vDict [("k", .vStr "v,\x7d")]) ≠ .vDict [("k", .vStr "v\x7d")] := by
  refine ⟨rfl, rfl, rfl, ?_⟩
  intro h
  injection h with h
  injection h with h1 h2
  injection h1 with h1a h1b
  injection h1b with h1c
  exact absurd h1c (by decide)

/-- C4: extract_text_from_response returns a non-empty direct
output_text verbatim, ignoring any output blocks; otherwise it joins the
collected fragments in encounter order with no separator, so blocks with
the fragments text a and plain b yield ab. -/
theorem c4_extract_resolution_order :
    (∀ (s : String) (out : PyVal) (rep : String), s ≠ "" →
      extract_text_from_response ⟨some s, out, rep⟩ = .ok s) ∧
    extract_text_from_response
      ⟨none, .vList [.vDict [("content", .vList [.vDict [("text", .vStr "a")], .vStr "b"])]],
       "zzz"⟩ = .ok "ab" ∧
    (∀ (blocks : List PyVal) (rep : String) (s : String), blocks ≠ [] →
      joinParts (collectParts blocks) = .ok s →
      extract_text_from_response ⟨none, .vList blocks, rep⟩ = .ok s) := by
  refine ⟨fun s out rep hs => ?_, rfl, fun blocks rep s hb hj => ?_⟩
  · show (if s = "" then extractFromOutput ⟨some s, out, rep⟩ else .ok s) = .ok s
    rw [if_neg hs]
  · cases blocks with
    | nil => exact absurd rfl hb
    | cons b bs => exact hj

/-- C5: the documented trailing-comma example: the candidate has its
trailing comma stripped, strict decoding of the raw text fails, and
parse_json_block decodes to the expected structure. -/
theorem c5_trailing_comma_stripped :
    parse_json_block "\x7b\"movies\": [\x7b\"title\": \"X\",\x7d], \"songs\": []\x7d" =
      .vDict [("movies", .vList [.vDict [("title", .vStr "X")]]), ("songs", .vList [])] ∧
    jsonCandidate "\x7b\"movies\": [\x7b\"title\": \"X\",\x7d], \"songs\": []\x7d" =
      "\x7b\"movies\": [\x7b\"title\": \"X\"\x7d], \"songs\": []\x7d" ∧
    (∃ e, jsonLoads "\x7b\"movies\": [\x7b\"title\": \"X\",\x7d], \"songs\": []\x7d" = .error e) :=
  ⟨rfl, rfl, ⟨"Expecting property name", rfl⟩⟩

/-- C8: an absent mood (dict.get returns None) or an empty mood string
yields exactly the 400 result with body error Mood is required, the
generation API is never called and no OMDb request goes out. -/
theorem c8_mood_required (run : RecommendRun) (v : PyVal)
    (hget : pyGet (runData run) "mood" = .ok v)
    (hv : v = PyVal.vNone ∨ v = .vStr "") :
    (recommend run).result = .ok ⟨.vDict [("error", .vStr "Mood is required")], 400⟩ ∧
    (recommend run).apiCalled = false ∧
    (recommend run).omdbRequests = 0 := by
  have hf : pyTruthy v = false := by
    rcases hv with h | h <;> subst h <;> rfl
  refine ⟨?_, ?_, ?_⟩ <;> simp [recommend, hget, hf, moodErrorBody]

/-- C8 witness: the end-to-end empty-mood request from the spec. -/
theorem c8_mood_required_witness :
    (recommend emptyMoodRun).result = .ok ⟨.vDict [("error", .vStr "Mood is required")], 400⟩ ∧
    (recommend emptyMoodRun).apiCalled = false ∧
    (recommend emptyMoodRun).omdbRequests = 0 :=
  c8_mood_required emptyMoodRun (.vStr "") rfl (Or.inr rfl)

/-- C9: omdb_lookup degrades to the all-None tuple on every failure
path: with a falsy credential it does so without issuing the network
request; with a credential, a raising request, a payload that is not a
mapping, and a payload whose Response field is not the string True all
produce the all-None tuple. -/
theorem c9_omdb_degrades :
    (∀ key net t y, keyTruthy key = false → omdb_lookup key net t y = (omdbAllNone, false)) ∧
    (∀ key t y, (omdb_lookup key NetOutcome.raise t y).1 = omdbAllNone) ∧
    (∀ key t y d, (∀ kvs, d ≠ PyVal.vDict kvs) →
      (omdb_lookup key (NetOutcome.ok d) t y).1 = omdbAllNone) ∧
    (∀ key t y kvs, pyEqStr ((dictFind kvs "Response").getD .vNone) "True" = false →
      (omdb_lookup key (NetOutcome.ok (.vDict kvs)) t y).1 = omdbAllNone) := by
  refine ⟨?_, ?_, ?_, ?_⟩
  · intro key net t y h
    simp [omdb_lookup, h]
  · intro key t y
    by_cases h : keyTruthy key = false <;> simp [omdb_lookup, h]
  · intro key t y d hd
    by_cases h : keyTruthy key = false
    · simp [omdb_lookup, h]
    · cases d with
      | vDict kvs => exact absurd rfl (hd kvs)
      | vNone => simp [omdb_lookup, h]
      | vBool b => simp [omdb_lookup, h]
      | vInt n => simp [omdb_lookup, h]
      | vFloat l => simp [omdb_lookup, h]
      | vStr s => simp [omdb_lookup, h]
      | vList xs => simp [omdb_lookup, h]
  · intro key t y kvs hr
    by_cases h : keyTruthy key = false <;> simp [omdb_lookup, h, hr]

/-- C9 witness: the four failure paths at concrete inputs: no
credential, network raise, non-mapping payload, Response False. -/
theorem c9_omdb_degrades_witness :
    omdb_lookup none NetOutcome.raise (.vStr "T") .vNone = (omdbAllNone, false) ∧
    (omdb_lookup (some "k") NetOutcome.raise (.vStr "T") .vNone).1 = omdbAllNone ∧
    (omdb_lookup (some "k") (NetOutcome.ok (.vInt 7)) (.vStr "T") .vNone).1 = omdbAllNone ∧
    (omdb_lookup (some "k") (NetOutcome.ok (.vDict [("Response", .vStr "False")]))
      (.vStr "T") .vNone).1 = omdbAllNone :=
  ⟨c9_omdb_degrades.1 none NetOutcome.raise (.vStr "T") .vNone rfl,
   c9_omdb_degrades.2.1 (some "k") (.vStr "T") .vNone,
   c9_omdb_degrades.2.2.1 (some "k") (.vStr "T") .vNone (.vInt 7)
     (fun kvs h => PyVal.noConfusion h),
   c9_omdb_degrades.2.2.2 (some "k") (.vStr "T") .vNone [("Response", .vStr "False")] rfl⟩

/-- C1 (amended): the 500 result with the OpenAI-request-failed body is
returned, carrying the failure detail, whenever the generation-API call
itself raises; the overall status never depends on the OMDb credential
or on any OMDb outcome, so metadata-lookup failures never turn a request
into a 500; and a strict-decode failure of the extracted text never
produces the 500 either, yielding the soft-fail 200 instead.  (The
original when-and-only-when direction is refuted separately: a later
step of the try block can also raise and reuse the same 500 shape.) -/
theorem c1_hard_failure_semantics :
    (∀ (run : RecommendRun) (e : String), run.api = .error e →
      (recommend run).apiCalled = true →
      (recommend run).result =
        .ok ⟨.vDict [("error", .vStr "OpenAI request failed"), ("details", .vStr e)], 500⟩) ∧
    (∀ (run : RecommendRun) (key : Option String) (netf : Nat → NetOutcome),
      outStatus (recommend { run with omdbKey := key, net := netf }) =
        outStatus (recommend run)) ∧
    (∀ (run : RecommendRun) (resp : RespObj) (text : String), run.api = .ok resp →
      (recommend run).apiCalled = true →
      extract_text_from_response resp = .ok text →
      (∃ e, jsonLoads (jsonCandidate (normalizeText text)) = .error e) →
      (recommend run).result =
        .ok ⟨.vDict [("error", .vStr "No movie data returned"), ("raw", .vStr text)], 200⟩) := by
  refine ⟨?_, ?_, ?_⟩
  · intro run e hapi hcalled
    cases hm : pyGet (runData run) "mood" with
    | error e2 => simp [recommend, hm] at hcalled
    | ok mood =>
      by_cases ht : pyTruthy mood = false
      · simp [recommend, hm, ht] at hcalled
      · simp [recommend, hm, ht, hapi, fail500]
  · intro run key netf
    cases hm : pyGet (runData run) "mood" with
    | error e =>
      unfold runData at hm
      simp [recommend, runData, hm, outStatus]
    | ok mood =>
      unfold runData at hm
      by_cases ht : pyTruthy mood = false
      · simp [recommend, runData, hm, ht, outStatus]
      · cases hapi : run.api with
        | error e => simp [recommend, runData, hm, ht, hapi, outStatus]
        | ok resp =>
          cases hext : extract_text_from_response resp with
          | error e => simp [recommend, runData, hm, ht, hapi, hext, outStatus]
          | ok text =>
            have hst := respStatus_handleText key run.omdbKey netf run.net text
            cases h1 : handleText key netf text with
            | mk c1 r1 =>
              cases h2 : handleText run.omdbKey run.net text with
              | mk c2 r2 =>
                rw [h1, h2] at hst
                cases r1 with
                | error e1 =>
                  cases r2 with
                  | error e2 =>
                    simp [recommend, runData, hm, ht, hapi, hext, h1, h2, outStatus, fail500]
                  | ok v2 => simp [respStatus] at hst
                | ok v1 =>
                  cases r2 with
                  | error e2 => simp [respStatus] at hst
                  | ok v2 =>
                    simp only [respStatus, Option.some.injEq] at hst
                    simp [recommend, runData, hm, ht, hapi, hext, h1, h2, outStatus, hst]
  · intro run resp text hapi hcalled hext hdec
    obtain ⟨e, hdec⟩ := hdec
    have hparse : parse_json_block text = .vDict [("raw_text", .vStr (normalizeText text))] := by
      unfold parse_json_block
      rw [hdec]
    have hcont : pyContains "movies" (parse_json_block text) = .ok false := by
      rw [hparse]
      rfl
    cases hm : pyGet (runData run) "mood" with
    | error e2 => simp [recommend, hm] at hcalled
    | ok mood =>
      by_cases ht : pyTruthy mood = false
      · simp [recommend, hm, ht] at hcalled
      · simp [recommend, hm, ht, hapi, hext, handleText, hcont, noMovieBody]

/-- C1 counterexample: a run whose generation-API call succeeds (it
returns the valid JSON text with movies bound to 42) still produces the
500 OpenAI-request-failed result, because the enrichment loop raises on
the non-sequence movies value; so the 500 is not returned only when the
generation call itself fails. -/
theorem c1_counterexample :
    (∃ r, c1run.api = .ok r) ∧
    outStatus (recommend c1run) = some 500 ∧
    bodyField (recommend c1run) "error" = some (.vStr "OpenAI request failed") :=
  ⟨⟨_, rfl⟩, rfl, rfl⟩

/-- C1 witness: the amended statement applied to concrete runs: a
raising generation call gives the 500 with its detail; the status of a
successful run does not change when the OMDb credential and oracle are
replaced; a non-JSON model output gives the soft-fail 200. -/
theorem c1_hard_failure_semantics_witness :
    (recommend failRun).result =
      .ok ⟨.vDict [("error", .vStr "OpenAI request failed"),
                   ("details", .vStr "conn reset")], 500⟩ ∧
    outStatus (recommend { okRun with omdbKey := none, net := fun _ => .raise }) =
      outStatus (recommend okRun) ∧
    (recommend softRun).result =
      .ok ⟨.vDict [("error", .vStr "No movie data returned"),
                   ("raw", .vStr "no json here")], 200⟩ :=
  ⟨c1_hard_failure_semantics.1 failRun "conn reset" rfl rfl,
   c1_hard_failure_semantics.2.1 okRun none (fun _ => .raise),
   c1_hard_failure_semantics.2.2 softRun
     { output_text := some "no json here", output := .vNone, strRepr := "" }
     "no json here" rfl rfl rfl ⟨"Expecting value", rfl⟩⟩

/-- C6 (amended): when the generation call succeeds and the membership
test of the movies key on the parsed structure succeeds and is negative
(as it is for every mapping without that key, in particular the raw-text
fallback), the endpoint returns the HTTP-success soft-fail body with the
error text and the raw extracted text; a parsed value that supports no
membership test instead raises and is refuted separately. -/
theorem c6_soft_fail (run : RecommendRun) (resp : RespObj) (text : String)
    (hapi : run.api = .ok resp)
    (hcalled : (recommend run).apiCalled = true)
    (hext : extract_text_from_response resp = .ok text)
    (hcont : pyContains "movies" (parse_json_block text) = .ok false) :
    (recommend run).result =
      .ok ⟨.vDict [("error", .vStr "No movie data returned"), ("raw", .vStr text)], 200⟩ := by
  cases hm : pyGet (runData run) "mood" with
  | error e => simp [recommend, hm] at hcalled
  | ok mood =>
    by_cases ht : pyTruthy mood = false
    · simp [recommend, hm, ht] at hcalled
    · simp [recommend, hm, ht, hapi, hext, handleText, hcont, noMovieBody]

/-- C6 counterexample: the model output 42 parses to a number, which
lacks any movies key, yet the endpoint returns the 500 hard-failure
shape rather than the 200 soft-fail body, because the membership test
itself raises on a number. -/
theorem c6_counterexample :
    parse_json_block "42" = .vInt 42 ∧
    (∃ r, c6run.api = .ok r) ∧
    outStatus (recommend c6run) = some 500 ∧
    bodyField (recommend c6run) "error" = some (.vStr "OpenAI request failed") :=
  ⟨rfl, ⟨_, rfl⟩, rfl, rfl⟩

/-- C6 witness: the soft-fail result on the concrete non-JSON output. -/
theorem c6_soft_fail_witness :
    (recommend softRun).result =
      .ok ⟨.vDict [("error", .vStr "No movie data returned"),
                   ("raw", .vStr "no json here")], 200⟩ :=
  c6_soft_fail softRun
    { output_text := some "no json here", output := .vNone, strRepr := "" }
    "no json here" rfl rfl rfl rfl

/-- C7: in every successful recommendations response (assuming the
provider returns Poster fields as strings when present), each movie
entry carries a poster_url that is a non-empty string; at the lookup
level, a raising request gives no poster, a Poster equal to the N/A
sentinel gives no poster, a truthy success payload propagates the poster
string, and the built entry holds the poster when truthy, else the fixed
placeholder path. -/
theorem c7_poster_url_invariant :
    (∀ (run : RecommendRun) (r : HttpResponse) (p : PyVal),
      posterWellTyped run.net →
      (recommend run).result = .ok r →
      r.body = .vDict [("recommendations", p)] →
      ∀ es, movieField p "movies" = some (.vList es) →
        ∀ m ∈ es, ∃ s, movieField m "poster_url" = some (.vStr s) ∧ s ≠ "") ∧
    (∀ key t y, (omdb_lookup key NetOutcome.raise t y).1.poster = .vNone) ∧
    (∀ key t y kvs, pyEqStr ((dictFind kvs "Response").getD .vNone) "True" = true →
      dictFind kvs "Poster" = some (.vStr "N/A") →
      (omdb_lookup key (NetOutcome.ok (.vDict kvs)) t y).1.poster = .vNone) ∧
    (∀ key t y kvs s, keyTruthy key = true →
      pyEqStr ((dictFind kvs "Response").getD .vNone) "True" = true →
      dictFind kvs "Poster" = some (.vStr s) → (s == "N/A") = false →
      (omdb_lookup key (NetOutcome.ok (.vDict kvs)) t y).1.poster = .vStr s) ∧
    (∀ key o m, movieField (enrichedAt key o m) "poster_url" =
      some (pyOr (omdb_lookup key o (mTitle m) (mYear m)).1.poster (.vStr posterPlaceholder))) := by
  refine ⟨?_, ?_, ?_, ?_, fun key o m => enrichedAt_poster key o m⟩
  · intro run r p hnet hres hbody es hmv m hm
    obtain ⟨resp, text, hapi, hext, movies, ms, cnt, h1, h2, h3, h4, h5⟩ :=
      recommend_success_inv run r p hres hbody
    cases hp : parse_json_block text with
    | vDict kvs =>
      rw [hp] at h4
      simp only [pySetStr, Except.ok.injEq] at h4
      rw [← h4] at hmv
      simp only [movieField, dictFind_dictSet_self, Option.some.injEq] at hmv
      injection hmv with hmv
      subst hmv
      obtain ⟨i, hget⟩ := List.mem_iff_get.mp hm
      have hlen : i.1 < ms.length := by
        have hl := enrichList_length run.omdbKey run.net ms
        have := i.2
        omega
      have hgi := enrichList_get run.omdbKey run.net ms i.1 hlen i.2
      have hmeq : m = enrichedAt run.omdbKey (run.net i.1) (ms.get ⟨i.1, hlen⟩) := by
        rw [← hget]
        rw [← hgi]
      subst hmeq
      rw [enrichedAt_poster]
      obtain ⟨t, hty, htne⟩ :=
        pyOr_poster _ (omdb_poster_shape run.omdbKey run.net hnet i.1
          (mTitle (ms.get ⟨i.1, hlen⟩)) (mYear (ms.get ⟨i.1, hlen⟩)))
      exact ⟨t, by rw [hty], htne⟩
    | vNone => rw [hp] at h1; simp [pyIndexStr] at h1
    | vBool b => rw [hp] at h1; simp [pyIndexStr] at h1
    | vInt n => rw [hp] at h1; simp [pyIndexStr] at h1
    | vFloat l => rw [hp] at h1; simp [pyIndexStr] at h1
    | vStr s2 => rw [hp] at h1; simp [pyIndexStr] at h1
    | vList xs => rw [hp] at h1; simp [pyIndexStr] at h1
  · intro key t y
    by_cases h : keyTruthy key = false <;> simp [omdb_lookup, h, omdbAllNone]
  · intro key t y kvs hr hf
    by_cases h : keyTruthy key = false
    · simp [omdb_lookup, h, omdbAllNone]
    · have hna : pyEqStr ((dictFind kvs "Poster").getD .vNone) "N/A" = true := by
        rw [hf]; rfl
      simp [omdb_lookup, h, hr, hna]
  · intro key t y kvs s hk hr hf hna
    have hna2 : pyEqStr ((dictFind kvs "Poster").getD .vNone) "N/A" = false := by
      rw [hf]; simp [pyEqStr, hna]
    have hna3 : pyEqStr (.vStr s) "N/A" = false := by simp [pyEqStr, hna]
    simp [omdb_lookup, hk, hr, hf, hna2, hna3]

/-- C10: every successful recommendations response is the parsed
structure with only its movies entry replaced: the movies entry holds
the enriched sequence, one entry per suggestion in order, the i-th built
from the i-th suggestion and the i-th lookup outcome, and every other
key of the parsed structure, songs included, is returned unchanged. -/
theorem c10_replace_movies_only (run : RecommendRun) (r : HttpResponse) (p : PyVal)
    (hres : (recommend run).result = .ok r)
    (hbody : r.body = .vDict [("recommendations", p)]) :
    ∃ resp text, run.api = .ok resp ∧ extract_text_from_response resp = .ok text ∧
      ∃ movies ms,
        pyIndexStr (parse_json_block text) "movies" = .ok movies ∧
        pyIter movies = .ok ms ∧
        movieField p "movies" = some (.vList (enrichList run.omdbKey run.net ms)) ∧
        (enrichList run.omdbKey run.net ms).length = ms.length ∧
        (∀ (i : Nat) (h1 : i < ms.length) (h2 : i < (enrichList run.omdbKey run.net ms).length),
          (enrichList run.omdbKey run.net ms).get ⟨i, h2⟩ =
            enrichedAt run.omdbKey (run.net i) (ms.get ⟨i, h1⟩)) ∧
        (∀ k, k ≠ "movies" → movieField p k = movieField (parse_json_block text) k) ∧
        r.status = 200 := by
  obtain ⟨resp, text, hapi, hext, movies, ms, cnt, h1, h2, h3, h4, h5⟩ :=
    recommend_success_inv run r p hres hbody
  refine ⟨resp, text, hapi, hext, movies, ms, h1, h2, ?_, ?_, ?_, ?_, h5⟩
  · cases hp : parse_json_block text with
    | vDict kvs =>
      rw [hp] at h4
      simp only [pySetStr, Except.ok.injEq] at h4
      rw [← h4]
      simp only [movieField, dictFind_dictSet_self]
    | vNone => rw [hp] at h1; simp [pyIndexStr] at h1
    | vBool b => rw [hp] at h1; simp [pyIndexStr] at h1
    | vInt n => rw [hp] at h1; simp [pyIndexStr] at h1
    | vFloat l => rw [hp] at h1; simp [pyIndexStr] at h1
    | vStr s2 => rw [hp] at h1; simp [pyIndexStr] at h1
    | vList xs => rw [hp] at h1; simp [pyIndexStr] at h1
  · exact enrichList_length run.omdbKey run.net ms
  · intro i hl1 hl2
    exact enrichList_get run.omdbKey run.net ms i hl1 hl2
  · intro k hk
    cases hp : parse_json_block text with
    | vDict kvs =>
      rw [hp] at h4
      simp only [pySetStr, Except.ok.injEq] at h4
      rw [← h4]
      simp only [movieField]
      exact dictFind_dictSet_ne kvs "movies" k (.vList (enrichList run.omdbKey run.net ms)) hk
    | vNone => rw [hp] at h1; simp [pyIndexStr] at h1
    | vBool b => rw [hp] at h1; simp [pyIndexStr] at h1
    | vInt n => rw [hp] at h1; simp [pyIndexStr] at h1
    | vFloat l => rw [hp] at h1; simp [pyIndexStr] at h1
    | vStr s2 => rw [hp] at h1; simp [pyIndexStr] at h1
    | vList xs => rw [hp] at h1; simp [pyIndexStr] at h1

/-- C7 witness: the successful run okRun yields a movie entry whose
poster_url is the non-empty provider URL. -/
theorem c7_poster_url_invariant_witness :
    ∃ s, movieField okMovie "poster_url" = some (.vStr s) ∧ s ≠ "" := by
  have hnet : posterWellTyped okRun.net := by
    intro i kvs v h1 h2
    injection h1 with h1
    injection h1 with h1
    subst h1
    injection h2 with h2
    exact Or.inr ⟨"http://img/p.jpg", h2.symm⟩
  exact c7_poster_url_invariant.1 okRun ⟨.vDict [("recommendations", okParsed2)], 200⟩
    okParsed2 hnet rfl rfl [okMovie] rfl okMovie (List.mem_singleton.mpr rfl)

/-- C10 witness: the frame property instantiated at the successful run
okRun, whose response holds okParsed2 under the recommendations key. -/
theorem c10_replace_movies_only_witness :
    ∃ resp text, okRun.api = .ok resp ∧ extract_text_from_response resp = .ok text ∧
      ∃ movies ms,
        pyIndexStr (parse_json_block text) "movies" = .ok movies ∧
        pyIter movies = .ok ms ∧
        movieField okParsed2 "movies" =
          some (.vList (enrichList okRun.omdbKey okRun.net ms)) ∧
        (enrichList okRun.omdbKey okRun.net ms).length = ms.length ∧
        (∀ (i : Nat) (h1 : i < ms.length)
            (h2 : i < (enrichList okRun.omdbKey okRun.net ms).length),
          (enrichList okRun.omdbKey okRun.net ms).get ⟨i, h2⟩ =
            enrichedAt okRun.omdbKey (okRun.net i) (ms.get ⟨i, h1⟩)) ∧
        (∀ k, k ≠ "movies" → movieField okParsed2 k = movieField (parse_json_block text) k) ∧
        (⟨.vDict [("recommendations", okParsed2)], 200⟩ : HttpResponse).status = 200 :=
  c10_replace_movies_only okRun ⟨.vDict [("recommendations", okParsed2)], 200⟩ okParsed2 rfl rfl

/-- C4 witness: the resolution order at concrete responses: a non-empty
direct text field wins over populated blocks, and a two-block output
joins its fragments. -/
theorem c4_extract_resolution_order_witness :
    extract_text_from_response
      ⟨some "hello", .vList [.vDict [("content", .vList [.vStr "ignored"])]], "rep"⟩ =
        .ok "hello" ∧
    extract_text_from_response
      ⟨none, .vList [.vDict [("content", .vList [.vStr "x"])],
                     .vDict [("content", .vStr "yz")]], "rep"⟩ = .ok "xyz" :=
  ⟨c4_extract_resolution_order.1 "hello"
     (.vList [.vDict [("content", .vList [.vStr "ignored"])]]) "rep" (by decide),
   c4_extract_resolution_order.2.2
     [.vDict [("content", .vList [.vStr "x"])], .vDict [("content", .vStr "yz")]]
     "rep" "xyz" (List.cons_ne_nil _ _) rfl⟩
